import Mathlib

/-!
Verification of the HCL-to-YAML core (lexer, parser, directive detector)
against its specification.

The definitions below are a shallow embedding of the TypeScript sources:
  - `src/src/parser/lexer.ts`   — the minimal tokenizer (`tokenizeLexer` here),
    which is the variant imported by `parser.ts`;
  - `src/src/parser/parser.ts`  — the recursive-descent parser (`parseHCL`),
    and the richer tokenizer variant with comments/booleans/signed numbers
    (`tokenize` here, lines 177-219 of the file);
  - `src/unnamed/part_003`      — the directive detector (`parseDirective`).

Conventions of the embedding:
  - JavaScript objects are insertion-ordered association lists
    (`Obj := List (String × HCLValue)`); property assignment keeps the
    position of an existing key and appends a new one, as JS does.
  - JS numbers are modelled as exact rationals (`ℚ`): every numeric literal
    accepted by the token grammar denotes a decimal rational, and the IEEE-754
    rounding that `parseFloat` applies is abstracted away.
  - Thrown JS exceptions are modelled with `Except String`, carrying the
    exact message the source builds.
  - The recursive scanners and parsers take an explicit fuel argument; the
    entry points pass a fuel that is strictly larger than the number of
    steps the scan/parse can take (each step consumes at least one character
    or token), so fuel exhaustion is unreachable from the entry points.
-/

/-- A parsed HCL value (`HCLValue` in `parser.ts`): string, number, boolean,
array, or object.  Objects are insertion-ordered association lists. -/
inductive HCLValue where
  | str (s : String)
  | num (q : ℚ)
  | bool (b : Bool)
  | arr (xs : List HCLValue)
  | obj (entries : List (String × HCLValue))

/-- A JavaScript object value: insertion-ordered association list. -/
abbrev Obj := List (String × HCLValue)

/-- Property lookup `o[k]`: first (and by construction only) binding of `k`. -/
def lookupObj (o : Obj) (k : String) : Option HCLValue :=
  match o with
  | [] => none
  | (k₀, v₀) :: rest => if k₀ = k then some v₀ else lookupObj rest k

/-- Property assignment `o[k] = v` with JS semantics: an existing key keeps
its position and is overwritten, a new key is appended at the end. -/
def setKey (o : Obj) (k : String) (v : HCLValue) : Obj :=
  match o with
  | [] => [(k, v)]
  | (k₀, v₀) :: rest => if k₀ = k then (k₀, v) :: rest else (k₀, v₀) :: setKey rest k v

/-- The keys of an object, in insertion order. -/
def keysOf (o : Obj) : List String := o.map Prod.fst

/-- JS truthiness of an `HCLValue`: `false`, `0` and `""` are falsy, every
other value of the union (including empty arrays and objects) is truthy. -/
def truthy : HCLValue → Bool
  | .str s => s ≠ ""
  | .num q => q ≠ 0
  | .bool b => b
  | .arr _ => true
  | .obj _ => true

/-- The enumerable own properties of an `HCLValue`, in the order
`Object.assign` visits them: an object contributes its entries, a string
contributes one single-character string per index key, an array one entry
per index key, and numbers/booleans contribute nothing. -/
def entriesOf : HCLValue → Obj
  | .obj es => es
  | .str s => (s.data.enum).map (fun p => (toString p.1, HCLValue.str (String.mk [p.2])))
  | .arr xs => (xs.enum).map (fun p => (toString p.1, p.2))
  | .num _ => []
  | .bool _ => []

/-- `Object.assign(target, v)` (parser.ts line 138): copy the enumerable own
properties of `v` into `target`, later same-named properties overwriting. -/
def objAssign (target : Obj) (v : HCLValue) : Obj :=
  (entriesOf v).foldl (fun acc p => setKey acc p.1 p.2) target

/-- A lexer token (`Token` in `lexer.ts` / `parser.ts`).  The minimal lexer
variant never emits `bool` tokens; the richer variant does. -/
inductive Token where
  | identifier (v : String)
  | str (v : String)
  | num (v : ℚ)
  | bool (v : Bool)
  | symbol (v : String)
deriving DecidableEq

/-- The `type` tag of a token, as the string the source compares against. -/
def tokType : Token → String
  | .identifier _ => "identifier"
  | .str _ => "string"
  | .num _ => "number"
  | .bool _ => "boolean"
  | .symbol _ => "symbol"

/-- JS strict equality `token.value === s` for a string `s`: number and
boolean values are never strictly equal to a string. -/
def tokValueEq (t : Token) (s : String) : Bool :=
  match t with
  | .identifier v => v = s
  | .str v => v = s
  | .symbol v => v = s
  | .num _ => false
  | .bool _ => false

/-- `token.value` read back as text (used for object keys and name chains,
which the source only does on identifier/string tokens). -/
def tokText : Token → String
  | .identifier v => v
  | .str v => v
  | .symbol v => v
  | .num _ => ""
  | .bool _ => ""

/-- `token.value` interpolated into an error message.  For the token kinds
any claim exercises (identifier/string/symbol/boolean) this is exactly the
JS stringification; the numeric rendering differs from JS float formatting
but is never reached by the theorems below. -/
def tokDisplay : Token → String
  | .identifier v => v
  | .str v => v
  | .symbol v => v
  | .bool b => if b then "true" else "false"
  | .num q => toString q.num ++ (if q.den = 1 then "" else "/" ++ toString q.den)

/-! ## Character classes of the token grammar -/

/-- `[A-Za-z_]`: a character that may start an identifier. -/
def isIdentStart (c : Char) : Bool := c.isAlpha || c = '_'

/-- `[A-Za-z0-9_-]`: a character that may continue an identifier. -/
def isIdentChar (c : Char) : Bool := c.isAlphanum || c = '_' || c = '-'

/-- `\w` of JS regexes: `[A-Za-z0-9_]`, used for the `\b` word boundary. -/
def isWordChar (c : Char) : Bool := c.isAlphanum || c = '_'

/-- The whitespace class `\s` of JS regexes, restricted to the ASCII
characters (space, tab, line feed, carriage return, vertical tab, form
feed); non-ASCII Unicode spaces are outside the inputs considered. -/
def jsWs (c : Char) : Bool :=
  c = ' ' || c = '\t' || c = '\n' || c = '\r' || c = '\x0b' || c = '\x0c'

/-- One of the symbol characters `{ } = [ ] ,`. -/
def isSymChar (c : Char) : Bool :=
  c = '{' || c = '}' || c = '=' || c = '[' || c = ']' || c = ','

/-- A syntactically valid identifier per the lexer grammar
`[A-Za-z_][A-Za-z0-9_-]*`. -/
def isValidIdent (s : String) : Bool :=
  match s.data with
  | [] => false
  | c :: cs => isIdentStart c && cs.all isIdentChar

/-! ## Token matchers (the alternatives of the scan regexes)

Each matcher tries to recognise one token at the head of the character
list and returns the token value together with the unconsumed suffix. -/

/-- `"[^"]*"`: a double-quoted string, contents taken verbatim. -/
def matchStrTok (cs : List Char) : Option (String × List Char) :=
  match cs with
  | '"' :: rest =>
    let content := rest.takeWhile (· ≠ '"')
    match rest.dropWhile (· ≠ '"') with
    | '"' :: rest₂ => some (String.mk content, rest₂)
    | _ => none
  | _ => none

/-- `[A-Za-z_][A-Za-z0-9_-]*`: an identifier (maximal munch). -/
def matchIdentTok (cs : List Char) : Option (String × List Char) :=
  match cs with
  | c :: rest =>
    if isIdentStart c then
      some (String.mk (c :: rest.takeWhile isIdentChar), rest.dropWhile isIdentChar)
    else none
  | [] => none

/-- The natural number denoted by a list of decimal digits. -/
def digitsVal (ds : List Char) : Nat :=
  ds.foldl (fun acc c => 10 * acc + (c.toNat - '0'.toNat)) 0

/-- `[0-9]+(?:\.[0-9]+)?` (the minimal lexer's number grammar): digits with
an optional fraction, as an exact rational. -/
def matchNumMin (cs : List Char) : Option (ℚ × List Char) :=
  match cs with
  | c :: _ =>
    if c.isDigit then
      let intDs := cs.takeWhile Char.isDigit
      let rest := cs.dropWhile Char.isDigit
      match rest with
      | '.' :: rest₂ =>
        match rest₂ with
        | d :: _ =>
          if d.isDigit then
            let fracDs := rest₂.takeWhile Char.isDigit
            some ((digitsVal intDs : ℚ) + (digitsVal fracDs : ℚ) / (10 : ℚ) ^ fracDs.length,
                  rest₂.dropWhile Char.isDigit)
          else some ((digitsVal intDs : ℚ), rest)
        | [] => some ((digitsVal intDs : ℚ), rest)
      | _ => some ((digitsVal intDs : ℚ), rest)
    else none
  | [] => none

/-- `-?[0-9]+(?:\.[0-9]+)?(?:[eE][+-]?[0-9]+)?` (the richer lexer's number
grammar): optional sign, digits, optional fraction, optional exponent.
The optional groups only commit when complete, mirroring the regex
backtracking (`1e` scans as the number `1` followed by the identifier `e`). -/
def matchNumRich (cs : List Char) : Option (ℚ × List Char) :=
  let (sign, cs₁) : ℚ × List Char :=
    match cs with
    | '-' :: rest => (-1, rest)
    | _ => (1, cs)
  match cs₁ with
  | c :: _ =>
    if c.isDigit then
      let intDs := cs₁.takeWhile Char.isDigit
      let rest := cs₁.dropWhile Char.isDigit
      let (mantissa, rest₂) : ℚ × List Char :=
        match rest with
        | '.' :: restF =>
          match restF with
          | d :: _ =>
            if d.isDigit then
              ((digitsVal intDs : ℚ) +
                 (digitsVal (restF.takeWhile Char.isDigit) : ℚ) /
                   (10 : ℚ) ^ (restF.takeWhile Char.isDigit).length,
               restF.dropWhile Char.isDigit)
            else ((digitsVal intDs : ℚ), rest)
          | [] => ((digitsVal intDs : ℚ), rest)
        | _ => ((digitsVal intDs : ℚ), rest)
      let withExp : ℚ × List Char :=
        match rest₂ with
        | e :: restE =>
          if e = 'e' || e = 'E' then
            let (expNeg, restS) : Bool × List Char :=
              match restE with
              | '+' :: r => (false, r)
              | '-' :: r => (true, r)
              | _ => (false, restE)
            match restS with
            | d :: _ =>
              if d.isDigit then
                let expDs := restS.takeWhile Char.isDigit
                let scale : ℚ := (10 : ℚ) ^ digitsVal expDs
                ((if expNeg then mantissa / scale else mantissa * scale),
                 restS.dropWhile Char.isDigit)
              else (mantissa, rest₂)
            | [] => (mantissa, rest₂)
          else (mantissa, rest₂)
        | [] => (mantissa, rest₂)
      some (sign * withExp.1, withExp.2)
    else none
  | [] => none

/-- `\btrue\b|\bfalse\b`: a boolean keyword.  `prevOk` records that the
character before the scan position is absent or not a word character (the
leading `\b`); the trailing `\b` is the check on the following character. -/
def matchBoolTok (prevOk : Bool) (cs : List Char) : Option (Bool × List Char) :=
  if !prevOk then none
  else
    match cs with
    | 't' :: 'r' :: 'u' :: 'e' :: rest =>
      match rest with
      | c :: _ => if isWordChar c then none else some (true, rest)
      | [] => some (true, rest)
    | 'f' :: 'a' :: 'l' :: 's' :: 'e' :: rest =>
      match rest with
      | c :: _ => if isWordChar c then none else some (false, rest)
      | [] => some (false, rest)
    | _ => none

/-! ## The minimal tokenizer (`lexer.ts`, lines 22-37)

The regex scan with `exec` in a loop is equivalent to: at each position try
the alternatives in order (string, identifier, number, symbol); on a match
emit the token and continue after it, otherwise skip one character (this is
the silent skipping of unrecognised characters; surrounding `\s*` is
subsumed by the skip because no alternative starts with whitespace). -/

def scanMin (fuel : Nat) (cs : List Char) : List Token :=
  match fuel with
  | 0 => []
  | fuel + 1 =>
    match cs with
    | [] => []
    | c :: rest =>
      match matchStrTok (c :: rest) with
      | some (s, rest') => .str s :: scanMin fuel rest'
      | none =>
        match matchIdentTok (c :: rest) with
        | some (s, rest') => .identifier s :: scanMin fuel rest'
        | none =>
          match matchNumMin (c :: rest) with
          | some (q, rest') => .num q :: scanMin fuel rest'
          | none =>
            if isSymChar c then .symbol (String.mk [c]) :: scanMin fuel rest
            else scanMin fuel rest

/-- `tokenize` of `lexer.ts`: the minimal variant imported by `parser.ts`.
No comment stripping, no boolean tokens, no signed numbers, no exponents. -/
def tokenizeLexer (input : String) : List Token :=
  scanMin (input.data.length + 1) input.data

/-! ## The richer tokenizer (`parser.ts`, lines 177-219)

Comment stripping happens before the scan: first the line-comment regex
`(?:^|\s)(#|\/\/).*$` with the `gm` flags, then the block-comment regex
`\/\*[\s\S]*?\*\//g`. -/

/-- Does the text start with a line-comment trigger (`#` or `//`)? -/
def isLineTrigger (cs : List Char) : Bool :=
  match cs with
  | '#' :: _ => true
  | '/' :: '/' :: _ => true
  | _ => false

/-- `.*$` with the `m` flag: drop everything up to (but not including) the
next line feed or the end of the text. -/
def dropToEol (cs : List Char) : List Char := cs.dropWhile (· ≠ '\n')

/-- The global-multiline replacement of `(?:^|\s)(#|\/\/).*$` by the empty
string: a `#`/`//` trigger that is line-initial is removed through end of
line; one preceded by a whitespace character is removed together with that
character.  `atStart` records whether the current position begins a line. -/
def stripLineComments (fuel : Nat) (atStart : Bool) (cs : List Char) : List Char :=
  match fuel with
  | 0 => []
  | fuel + 1 =>
    match cs with
    | [] => []
    | c :: rest =>
      if atStart && isLineTrigger (c :: rest) then
        stripLineComments fuel false (dropToEol (c :: rest))
      else if jsWs c && isLineTrigger rest then
        stripLineComments fuel false (dropToEol rest)
      else
        c :: stripLineComments fuel (c = '\n') rest

/-- Drop through the first `*/`, returning the suffix after it (the
non-greedy `[\s\S]*?\*\/`), or `none` when the comment is unterminated. -/
def findStarSlash (cs : List Char) : Option (List Char) :=
  match cs with
  | '*' :: '/' :: rest => some rest
  | _ :: rest => findStarSlash rest
  | [] => none

/-- The global replacement of `\/\*[\s\S]*?\*\//g` by the empty string:
each `/*` with a matching `*/` is removed; an unterminated `/*` (no `*/`
anywhere after it) matches nothing and is kept verbatim. -/
def stripBlockComments (fuel : Nat) (cs : List Char) : List Char :=
  match fuel with
  | 0 => []
  | fuel + 1 =>
    match cs with
    | [] => []
    | '/' :: '*' :: rest =>
      match findStarSlash rest with
      | some rest' => stripBlockComments fuel rest'
      | none => '/' :: '*' :: rest
    | c :: rest => c :: stripBlockComments fuel rest

/-- The scan loop of the richer regex, alternatives in precedence order:
string, boolean (with `\b` boundaries), identifier, number, symbol; an
unmatched character is skipped silently.  `prevWord` records whether the
character immediately before the scan position is a word character (for the
leading `\b` of the boolean alternative); after an identifier, boolean or
number token the last consumed character is a word character — for an
identifier possibly a hyphen, but then no boolean keyword can follow
directly, since maximal munch would have absorbed its letters. -/
def scanRich (fuel : Nat) (prevWord : Bool) (cs : List Char) : List Token :=
  match fuel with
  | 0 => []
  | fuel + 1 =>
    match cs with
    | [] => []
    | c :: rest =>
      match matchStrTok (c :: rest) with
      | some (s, rest') => .str s :: scanRich fuel false rest'
      | none =>
        match matchBoolTok (!prevWord) (c :: rest) with
        | some (b, rest') => .bool b :: scanRich fuel true rest'
        | none =>
          match matchIdentTok (c :: rest) with
          | some (s, rest') => .identifier s :: scanRich fuel true rest'
          | none =>
            match matchNumRich (c :: rest) with
            | some (q, rest') => .num q :: scanRich fuel true rest'
            | none =>
              if isSymChar c then .symbol (String.mk [c]) :: scanRich fuel false rest
              else scanRich fuel (isWordChar c) rest

/-- `tokenize` of `parser.ts` lines 177-219 (the richer variant used by the
validated pipelines): strip line comments, strip block comments, scan. -/
def tokenize (input : String) : List Token :=
  let cleaned₁ := stripLineComments (input.data.length + 1) true input.data
  let cleaned₂ := stripBlockComments (cleaned₁.length + 1) cleaned₁
  scanRich (cleaned₂.length + 1) false cleaned₂

/-! ## The recursive-descent parser (`parser.ts`, lines 25-146)

The shared mutable cursor `pos` is threaded explicitly: every parsing
function takes the token list and a position and returns the parsed result
together with the position after it, or the thrown error message. -/

/-- `consume(expectedType?, expectedValue?)` (parser.ts lines 44-52):
advance by one token; fail when the stream is exhausted, when a given
expected type differs from the token type, or when a given expected value
differs from the token value. -/
def consume (tokens : List Token) (pos : Nat)
    (expectedType : Option String) (expectedValue : Option String) :
    Except String (Token × Nat) :=
  match tokens[pos]? with
  | none => .error "Unexpected end of input"
  | some token =>
    match expectedType with
    | some et =>
      if tokType token ≠ et then
        .error ("Expected " ++ et ++ ", got " ++ tokType token)
      else
        match expectedValue with
        | some ev =>
          if !tokValueEq token ev then
            .error ("Expected '" ++ ev ++ "', got '" ++ tokDisplay token ++ "'")
          else .ok (token, pos + 1)
        | none => .ok (token, pos + 1)
    | none =>
      match expectedValue with
      | some ev =>
        if !tokValueEq token ev then
          .error ("Expected '" ++ ev ++ "', got '" ++ tokDisplay token ++ "'")
        else .ok (token, pos + 1)
      | none => .ok (token, pos + 1)

mutual

/-- `parseValue` (parser.ts lines 58-76): a string or number token is
consumed and returned as the scalar; `{` delegates to the object parser and
`[` to the array parser (their bodies are inlined here, preserving
behaviour); any other token — including a boolean token — throws
`Unexpected token`. -/
def parseValue (fuel : Nat) (tokens : List Token) (pos : Nat) :
    Except String (HCLValue × Nat) :=
  match fuel with
  | 0 => .error "out of fuel"
  | fuel + 1 =>
    match tokens[pos]? with
    | none => .error "Unexpected end of input"
    | some token =>
      match token with
      | .str v => .ok (.str v, pos + 1)
      | .num v => .ok (.num v, pos + 1)
      | .symbol v =>
        if v = "\x7b" then
          -- parseObject (parser.ts lines 97-107)
          match consume tokens pos (some "symbol") (some "\x7b") with
          | .error e => .error e
          | .ok (_, pos₁) =>
            match parseObjectEntries fuel tokens pos₁ [] with
            | .error e => .error e
            | .ok (entries, pos₂) =>
              match consume tokens pos₂ (some "symbol") (some "\x7d") with
              | .error e => .error e
              | .ok (_, pos₃) => .ok (.obj entries, pos₃)
        else if v = "[" then
          -- parseArray (parser.ts lines 82-91)
          match consume tokens pos (some "symbol") (some "[") with
          | .error e => .error e
          | .ok (_, pos₁) =>
            match parseArrayElems fuel tokens pos₁ [] with
            | .error e => .error e
            | .ok (elems, pos₂) =>
              match consume tokens pos₂ (some "symbol") (some "]") with
              | .error e => .error e
              | .ok (_, pos₃) => .ok (.arr elems, pos₃)
        else .error ("Unexpected token: " ++ tokDisplay token)
      | _ => .error ("Unexpected token: " ++ tokDisplay token)

/-- The `while` loop of `parseArray`: as long as a token remains and is not
`]`, parse one value, then consume a `,` when one follows (optional per
iteration, so trailing commas are tolerated). -/
def parseArrayElems (fuel : Nat) (tokens : List Token) (pos : Nat)
    (acc : List HCLValue) : Except String (List HCLValue × Nat) :=
  match fuel with
  | 0 => .error "out of fuel"
  | fuel + 1 =>
    match tokens[pos]? with
    | none => .ok (acc, pos)
    | some t =>
      if tokValueEq t "]" then .ok (acc, pos)
      else
        match parseValue fuel tokens pos with
        | .error e => .error e
        | .ok (v, pos₁) =>
          match tokens[pos₁]? with
          | some t₂ =>
            if tokValueEq t₂ "," then
              match consume tokens pos₁ (some "symbol") (some ",") with
              | .error e => .error e
              | .ok (_, pos₂) => parseArrayElems fuel tokens pos₂ (acc ++ [v])
            else parseArrayElems fuel tokens pos₁ (acc ++ [v])
          | none => parseArrayElems fuel tokens pos₁ (acc ++ [v])

/-- The `while` loop of `parseObject`: as long as a token remains and is
not `}`, consume an identifier key, a `=`, and a value; duplicate keys
overwrite (last write wins). -/
def parseObjectEntries (fuel : Nat) (tokens : List Token) (pos : Nat)
    (acc : Obj) : Except String (Obj × Nat) :=
  match fuel with
  | 0 => .error "out of fuel"
  | fuel + 1 =>
    match tokens[pos]? with
    | none => .ok (acc, pos)
    | some t =>
      if tokValueEq t "\x7d" then .ok (acc, pos)
      else
        match consume tokens pos (some "identifier") none with
        | .error e => .error e
        | .ok (keyTok, pos₁) =>
          match consume tokens pos₁ (some "symbol") (some "=") with
          | .error e => .error e
          | .ok (_, pos₂) =>
            match parseValue fuel tokens pos₂ with
            | .error e => .error e
            | .ok (v, pos₃) =>
              parseObjectEntries fuel tokens pos₃ (setKey acc (tokText keyTok) v)

end

/-- The name-chain loop of `parseTopLevel` (parser.ts lines 117-121):
collect the values of the consecutive string tokens at the cursor. -/
def collectNames (fuel : Nat) (tokens : List Token) (pos : Nat) :
    List String × Nat :=
  match fuel with
  | 0 => ([], pos)
  | fuel + 1 =>
    match tokens[pos]? with
    | some (.str v) =>
      let (ns, pos') := collectNames fuel tokens (pos + 1)
      (v :: ns, pos')
    | _ => ([], pos)

/-- The walk of parser.ts lines 126-136 over a non-empty name chain: for
every name but the last, keep a truthy existing child (replacing a falsy
one by `{}`), create `{}` when absent, and descend; assign the block body
at the last name.  A falsy (empty-string) name is skipped entirely, and a
falsy last name suppresses the assignment, mirroring the `if (n)` and
`if (lastName)` guards.  Descending into a value that is not a mapping
cannot happen for trees this parser builds; in strict-mode JS the
subsequent property assignment would throw, modelled by the error case. -/
def walkPath (ref : Obj) (names : List String) (value : HCLValue) :
    Except String Obj :=
  match names with
  | [] => .ok ref
  | [last] => .ok (if last = "" then ref else setKey ref last value)
  | n :: rest =>
    if n = "" then walkPath ref rest value
    else
      let child : HCLValue :=
        match lookupObj ref n with
        | some cv => if truthy cv then cv else .obj []
        | none => .obj []
      match child with
      | .obj centries =>
        match walkPath centries rest value with
        | .ok c₂ => .ok (setKey ref n (.obj c₂))
        | .error e => .error e
      | _ => .error "TypeError: walk target is not a mapping"

/-- The nesting placement of parser.ts lines 124-139: an empty name chain
merges the body into the keyword's mapping via `Object.assign`; a
non-empty one walks the chain and assigns at the last name. -/
def placeBlock (curr : Obj) (names : List String) (value : HCLValue) :
    Except String Obj :=
  match names with
  | [] => .ok (objAssign curr value)
  | _ => walkPath curr names value

/-- `parseTopLevel` (parser.ts lines 113-143): while tokens remain, consume
a block keyword (an identifier), the name chain (consecutive strings), one
value as the block body, and place it under the keyword.  `result[key]` is
always a mapping built by this very function, so the non-mapping guard
below is unreachable (in JS it would be a primitive whose property writes
throw in strict mode). -/
def parseTopLevel (fuel : Nat) (tokens : List Token) (pos : Nat)
    (result : Obj) : Except String Obj :=
  match fuel with
  | 0 => .error "out of fuel"
  | fuel + 1 =>
    match tokens[pos]? with
    | none => .ok result
    | some _ =>
      match consume tokens pos (some "identifier") none with
      | .error e => .error e
      | .ok (keyTok, pos₁) =>
        let key := tokText keyTok
        let (names, pos₂) := collectNames fuel tokens pos₁
        match parseValue fuel tokens pos₂ with
        | .error e => .error e
        | .ok (value, pos₃) =>
          let currE : Except String Obj :=
            match lookupObj result key with
            | none => .ok []
            | some v =>
              if truthy v then
                match v with
                | .obj es => .ok es
                | _ => .error "TypeError: existing value is not a mapping"
              else .ok []
          match currE with
          | .error e => .error e
          | .ok curr =>
            match placeBlock curr names value with
            | .error e => .error e
            | .ok curr' => parseTopLevel fuel tokens pos₃ (setKey result key (.obj curr'))

/-- `parseHCL` (parser.ts lines 25-146): tokenize with the minimal lexer
variant that `parser.ts` imports, then parse from position 0.  The fuel
`4 * tokens.length + 4` strictly exceeds the recursion depth and the loop
counts, each of which consumes at least one token per step. -/
def parseHCL (input : String) : Except String Obj :=
  let tokens := tokenizeLexer input
  parseTopLevel (4 * tokens.length + 4) tokens 0 []

/-! ## The directive detector (`src/unnamed/part_003`)

`parseDirective` matches the anchored, case-insensitive regex
`^\s*(?:\/\/.*\n|\/\*[\s\S]*?\*\/|\#.*\n)*\s*use\s+(cloudformation|grafana|kubernetes)\s*`
against the input; on a match it reports the (lower-cased) service and
returns the input with the matched prefix sliced off, otherwise it reports
no service and returns the input verbatim. -/

/-- The supported service types (`ServiceType` in the source, with `null`
modelled by `Option`). -/
inductive ServiceType where
  | cloudformation
  | grafana
  | kubernetes
deriving DecidableEq

/-- The result of `parseDirective` (`DirectiveResult` in the source). -/
structure DirectiveResult where
  serviceType : Option ServiceType
  cleanedInput : String
deriving DecidableEq

/-- Case-insensitive literal match: consume `pat` (given in lower case)
from the head of `cs`, comparing characters after ASCII lower-casing. -/
def matchCI (pat : List Char) (cs : List Char) : Option (List Char) :=
  match pat, cs with
  | [], rest => some rest
  | _ :: _, [] => none
  | p :: ps, c :: rest => if c.toLower = p then matchCI ps rest else none

/-- The leading comment loop `(?:\/\/.*\n|\/\*[\s\S]*?\*\/|\#.*\n)*`:
greedily consume adjacent comments (a line comment needs its terminating
line feed, a block comment its `*/`); the loop stops at the first
non-comment position.  The regex alternatives are deterministic at each
position, except that a non-greedy block comment could in principle
backtrack to a later `*/` — a corner none of the theorems below touches. -/
def skipDirComments (fuel : Nat) (cs : List Char) : List Char :=
  match fuel with
  | 0 => cs
  | fuel + 1 =>
    match cs with
    | '/' :: '/' :: rest =>
      match rest.dropWhile (· ≠ '\n') with
      | '\n' :: rest' => skipDirComments fuel rest'
      | _ => cs
    | '#' :: rest =>
      match rest.dropWhile (· ≠ '\n') with
      | '\n' :: rest' => skipDirComments fuel rest'
      | _ => cs
    | '/' :: '*' :: rest =>
      match findStarSlash rest with
      | some rest' => skipDirComments fuel rest'
      | none => cs
    | _ => cs

/-- The service-name alternation `(cloudformation|grafana|kubernetes)` with
the `i` flag: each name matches as a case-insensitive literal at the head
of the text — with no trailing word boundary, so a name may be immediately
followed by more letters. -/
def matchService (cs : List Char) : Option (ServiceType × List Char) :=
  match matchCI "cloudformation".data cs with
  | some rest => some (.cloudformation, rest)
  | none =>
    match matchCI "grafana".data cs with
    | some rest => some (.grafana, rest)
    | none =>
      match matchCI "kubernetes".data cs with
      | some rest => some (.kubernetes, rest)
      | none => none

/-- `parseDirective` (`src/unnamed/part_003`, lines 35-59). -/
def parseDirective (input : String) : DirectiveResult :=
  let cs := input.data
  let s₁ := cs.dropWhile jsWs
  let s₂ := skipDirComments (s₁.length + 1) s₁
  let s₃ := s₂.dropWhile jsWs
  match matchCI "use".data s₃ with
  | none => ⟨none, input⟩
  | some s₄ =>
    match s₄ with
    | [] => ⟨none, input⟩
    | c :: rest =>
      if jsWs c then
        let s₅ := rest.dropWhile jsWs
        match matchService s₅ with
        | some (svc, s₆) => ⟨some svc, String.mk (s₆.dropWhile jsWs)⟩
        | none => ⟨none, input⟩
      else ⟨none, input⟩

/-! ## Helper lemmas -/

/-- A key of `setKey o k v` is a key of `o` or is `k`. -/
theorem setKey_keys_sub : ∀ (o : Obj) (k k' : String) (v : HCLValue),
    k' ∈ keysOf (setKey o k v) → k' ∈ keysOf o ∨ k' = k := by
  intro o k
  induction o with
  | nil =>
    intro k' v h
    right
    simpa [setKey, keysOf] using h
  | cons p rest ih =>
    intro k' v h
    obtain ⟨k₀, v₀⟩ := p
    by_cases hk : k₀ = k
    · simp only [setKey, if_pos hk, keysOf, List.map_cons, List.mem_cons] at h ⊢
      tauto
    · simp only [setKey, if_neg hk, keysOf, List.map_cons, List.mem_cons] at h ⊢
      rcases h with h | h
      · tauto
      · rcases ih k' v h with h' | h' <;> tauto

/-- The identifier matcher only produces grammatically valid identifiers. -/
theorem matchIdentTok_valid {cs rest : List Char} {s : String}
    (h : matchIdentTok cs = some (s, rest)) : isValidIdent s = true := by
  cases cs with
  | nil => simp [matchIdentTok] at h
  | cons c cs' =>
    by_cases hc : isIdentStart c
    · simp [matchIdentTok, hc] at h
      obtain ⟨h₁, -⟩ := h
      simp [← h₁, isValidIdent, hc, List.all_takeWhile]
    · simp [matchIdentTok, hc] at h

/-- Every identifier token the minimal scanner emits carries a grammatically
valid identifier. -/
theorem scanMin_ident_valid :
    ∀ fuel cs v, Token.identifier v ∈ scanMin fuel cs → isValidIdent v = true := by
  intro fuel
  induction fuel with
  | zero => intro cs v h; simp [scanMin] at h
  | succ n ih =>
    intro cs v h
    match cs with
    | [] => simp [scanMin] at h
    | c :: rest =>
      simp only [scanMin] at h
      split at h
      · next s rest' hstr =>
        simp only [List.mem_cons] at h
        rcases h with h | h
        · exact Token.noConfusion h
        · exact ih _ _ h
      · split at h
        · next s rest' hid =>
          simp only [List.mem_cons] at h
          rcases h with h | h
          · injection h with hv
            exact matchIdentTok_valid (hv ▸ hid)
          · exact ih _ _ h
        · split at h
          · next q rest' hnum =>
            simp only [List.mem_cons] at h
            rcases h with h | h
            · exact Token.noConfusion h
            · exact ih _ _ h
          · split at h
            · simp only [List.mem_cons] at h
              rcases h with h | h
              · exact Token.noConfusion h
              · exact ih _ _ h
            · exact ih _ _ h

/-- A successful `consume` with expected type `"identifier"` yields an
identifier token that occurs in the token list. -/
theorem consume_ident_shape {tokens : List Token} {pos pos' : Nat} {t : Token}
    (h : consume tokens pos (some "identifier") none = .ok (t, pos')) :
    ∃ v, t = Token.identifier v ∧ Token.identifier v ∈ tokens := by
  cases heq : tokens[pos]? with
  | none => simp [consume, heq] at h
  | some tok =>
    simp only [consume, heq] at h
    by_cases hty : tokType tok ≠ "identifier"
    · simp [hty] at h
    · simp only [hty, if_false, ite_false] at h
      simp at h
      obtain ⟨h₁, -⟩ := h
      push_neg at hty
      cases tok with
      | identifier v => exact ⟨v, by simp_all, List.getElem?_mem heq⟩
      | str v => simp [tokType] at hty
      | num v => simp [tokType] at hty
      | bool v => simp [tokType] at hty
      | symbol v => simp [tokType] at hty

/-- Invariant of the top-level parse loop: every key of the result either
was a key of the accumulator or is the text of an identifier token of the
input. -/
theorem parseTopLevel_keys (P : String → Prop) (tokens : List Token)
    (htok : ∀ v, Token.identifier v ∈ tokens → P v) :
    ∀ fuel pos acc d, (∀ k ∈ keysOf acc, P k) →
      parseTopLevel fuel tokens pos acc = .ok d →
      ∀ k ∈ keysOf d, P k := by
  intro fuel
  induction fuel with
  | zero => intro pos acc d hacc h; simp [parseTopLevel] at h
  | succ n ih =>
    intro pos acc d hacc h
    simp only [parseTopLevel] at h
    split at h
    · simp only [Except.ok.injEq] at h
      exact h ▸ hacc
    · split at h
      · exact Except.noConfusion h
      · next keyTok pos₁ hcons =>
        split at h
        · exact Except.noConfusion h
        · next value pos₃ hval =>
          split at h
          · exact Except.noConfusion h
          · next curr hcurr =>
            split at h
            · exact Except.noConfusion h
            · next curr' hplace =>
              obtain ⟨v, hvt, hvmem⟩ := consume_ident_shape hcons
              refine ih _ _ _ ?_ h
              intro k hk
              rcases setKey_keys_sub _ _ _ _ hk with hk' | hk'
              · exact hacc k hk'
              · subst hk'
                have hkey : tokText keyTok = v := by rw [hvt]; rfl
                rw [hkey]
                exact htok v hvmem

/-- The concrete characters of the `\s` class. -/
theorem jsWs_cases {c : Char} (h : jsWs c = true) :
    c = ' ' ∨ c = '\t' ∨ c = '\n' ∨ c = '\x0d' ∨ c = '\x0b' ∨ c = '\x0c' := by
  simp only [jsWs, Bool.or_eq_true, decide_eq_true_eq] at h
  tauto

/-- A text consisting of whitespace contains no line-comment trigger. -/
theorem trigger_not_ws : ∀ (cs : List Char), (∀ c ∈ cs, jsWs c = true) →
    isLineTrigger cs = false := by
  intro cs h
  match cs with
  | [] => rfl
  | c :: rest =>
    rcases jsWs_cases (h c (by simp)) with h' | h' | h' | h' | h' | h' <;> subst h' <;> rfl

/-- Line-comment stripping leaves whitespace-only text unchanged. -/
theorem stripLine_ws : ∀ (fuel : Nat) (cs : List Char) (b : Bool), cs.length < fuel →
    (∀ c ∈ cs, jsWs c = true) → stripLineComments fuel b cs = cs := by
  intro fuel
  induction fuel with
  | zero => intro cs b hlen _; omega
  | succ n ih =>
    intro cs b hlen hws
    match cs with
    | [] => simp [stripLineComments]
    | c :: rest =>
      have htrig := trigger_not_ws (c :: rest) hws
      have htrig' := trigger_not_ws rest (fun c hc => hws c (by simp [hc]))
      have hlen' : rest.length < n := by simp at hlen; omega
      simp only [stripLineComments, htrig, htrig', Bool.and_false, Bool.false_eq_true,
        if_false, List.cons.injEq, true_and]
      exact ih rest _ hlen' (fun c hc => hws c (by simp [hc]))

/-- Block-comment stripping steps over a whitespace character. -/
theorem stripBlock_ws_step {c : Char} (h : jsWs c = true) (n : Nat) (rest : List Char) :
    stripBlockComments (n + 1) (c :: rest) = c :: stripBlockComments n rest := by
  rcases jsWs_cases h with h' | h' | h' | h' | h' | h' <;> subst h' <;> rfl

/-- Block-comment stripping leaves whitespace-only text unchanged. -/
theorem stripBlock_ws : ∀ (fuel : Nat) (cs : List Char), cs.length < fuel →
    (∀ c ∈ cs, jsWs c = true) → stripBlockComments fuel cs = cs := by
  intro fuel
  induction fuel with
  | zero => intro cs hlen _; omega
  | succ n ih =>
    intro cs hlen hws
    match cs with
    | [] => simp [stripBlockComments]
    | c :: rest =>
      have hlen' : rest.length < n := by simp at hlen; omega
      rw [stripBlock_ws_step (hws c (by simp)) n rest,
        ih rest hlen' (fun c hc => hws c (by simp [hc]))]

/-- The richer scanner steps over a whitespace character without emitting. -/
theorem scanRich_ws_step {c : Char} (h : jsWs c = true) (n : Nat) (p : Bool) (rest : List Char) :
    scanRich (n + 1) p (c :: rest) = scanRich n false rest := by
  rcases jsWs_cases h with h' | h' | h' | h' | h' | h' <;> subst h' <;> cases p <;> rfl

/-- The richer scanner emits nothing on whitespace-only text. -/
theorem scanRich_ws : ∀ (fuel : Nat) (p : Bool) (cs : List Char),
    (∀ c ∈ cs, jsWs c = true) → scanRich fuel p cs = [] := by
  intro fuel
  induction fuel with
  | zero => intro p cs _; rfl
  | succ n ih =>
    intro p cs hws
    match cs with
    | [] => rfl
    | c :: rest =>
      rw [scanRich_ws_step (hws c (by simp)) n p rest]
      exact ih false rest (fun c hc => hws c (by simp [hc]))

/-- The minimal scanner steps over a whitespace character without emitting. -/
theorem scanMin_ws_step {c : Char} (h : jsWs c = true) (n : Nat) (rest : List Char) :
    scanMin (n + 1) (c :: rest) = scanMin n rest := by
  rcases jsWs_cases h with h' | h' | h' | h' | h' | h' <;> subst h' <;> rfl

/-- The minimal scanner emits nothing on whitespace-only text. -/
theorem scanMin_ws : ∀ (fuel : Nat) (cs : List Char),
    (∀ c ∈ cs, jsWs c = true) → scanMin fuel cs = [] := by
  intro fuel
  induction fuel with
  | zero => intro cs _; rfl
  | succ n ih =>
    intro cs hws
    match cs with
    | [] => rfl
    | c :: rest =>
      rw [scanMin_ws_step (hws c (by simp)) n rest]
      exact ih rest (fun c hc => hws c (by simp [hc]))

/-! ## The claims -/

/-- Claim C1: for top-level blocks with the same keyword and non-empty name
chains, `parseHCL` walks/creates nested mappings for every name but the
last, assigns the block body at the last name, and accumulates overlapping
name-chain prefixes into the same subtree.  Stated generally at the token
level for two blocks `k "t" "n₁" { a₁ = "x" }` and `k "t" "n₂" { a₂ = "y" }`
(the fuel 68 is exactly what `parseHCL` passes for these 16 tokens), and
concretely for the spec's `resource "aws_instance" "web"/"db"` example. -/
theorem claim_C1_top_level_nesting
    (k t n₁ n₂ a₁ a₂ x y : String)
    (ht : t ≠ "") (hn₁ : n₁ ≠ "") (hn₂ : n₂ ≠ "") (h₁₂ : n₁ ≠ n₂)
    (ha₁ : a₁ ≠ "\x7d") (ha₂ : a₂ ≠ "\x7d") :
    parseTopLevel 68
      [.identifier k, .str t, .str n₁, .symbol "\x7b", .identifier a₁, .symbol "=", .str x, .symbol "\x7d",
       .identifier k, .str t, .str n₂, .symbol "\x7b", .identifier a₂, .symbol "=", .str y, .symbol "\x7d"] 0 []
      = .ok [(k, .obj [(t, .obj [(n₁, .obj [(a₁, .str x)]), (n₂, .obj [(a₂, .str y)])])])]
    ∧ parseHCL "resource \"aws_instance\" \"web\" \x7b ami = \"x\" \x7d resource \"aws_instance\" \"db\" \x7b ami = \"y\" \x7d"
      = .ok [("resource", .obj [("aws_instance", .obj
          [("web", .obj [("ami", .str "x")]), ("db", .obj [("ami", .str "y")])])])] := by
  constructor
  · simp [parseTopLevel, consume, collectNames, parseValue, parseObjectEntries,
      placeBlock, walkPath, objAssign, entriesOf, setKey, lookupObj, tokType, tokText,
      tokValueEq, tokDisplay, truthy, ht, hn₁, hn₂, h₁₂, ha₁, ha₂]
  · rfl

/-- Witness for C1 at the spec's concrete strings. -/
theorem claim_C1_witness :
    parseTopLevel 68
      [.identifier "resource", .str "aws_instance", .str "web", .symbol "\x7b",
       .identifier "ami", .symbol "=", .str "x", .symbol "\x7d",
       .identifier "resource", .str "aws_instance", .str "db", .symbol "\x7b",
       .identifier "ami", .symbol "=", .str "y", .symbol "\x7d"] 0 []
      = .ok [("resource", .obj [("aws_instance", .obj
          [("web", .obj [("ami", .str "x")]), ("db", .obj [("ami", .str "y")])])])] :=
  (claim_C1_top_level_nesting "resource" "aws_instance" "web" "db" "ami" "ami" "x" "y"
    (by decide) (by decide) (by decide) (by decide) (by decide) (by decide)).1

/-- Claim C2: a top-level block with an empty name chain merges the body's
key-value pairs directly into the keyword's mapping; repeated bare blocks
accumulate into one shared mapping, later same-named fields overwriting.
Stated generally at the token level for `k { a = x } k { b = y }` with
distinct keys, for the overwriting case with the same key twice (fuel 52 is
what `parseHCL` passes for these 12 tokens), and concretely for the spec's
`config { a = 1 } config { b = 2 }` example. -/
theorem claim_C2_bare_block_accumulation
    (k a b : String) (x y : ℚ) (ha : a ≠ "\x7d") (hb : b ≠ "\x7d") (hab : a ≠ b) :
    parseTopLevel 52
      [.identifier k, .symbol "\x7b", .identifier a, .symbol "=", .num x, .symbol "\x7d",
       .identifier k, .symbol "\x7b", .identifier b, .symbol "=", .num y, .symbol "\x7d"] 0 []
      = .ok [(k, .obj [(a, .num x), (b, .num y)])]
    ∧ parseTopLevel 52
      [.identifier k, .symbol "\x7b", .identifier a, .symbol "=", .num x, .symbol "\x7d",
       .identifier k, .symbol "\x7b", .identifier a, .symbol "=", .num y, .symbol "\x7d"] 0 []
      = .ok [(k, .obj [(a, .num y)])]
    ∧ parseHCL "config \x7b a = 1 \x7d config \x7b b = 2 \x7d"
      = .ok [("config", .obj [("a", .num 1), ("b", .num 2)])] := by
  refine ⟨?_, ?_, rfl⟩
  · simp [parseTopLevel, consume, collectNames, parseValue, parseObjectEntries,
      placeBlock, objAssign, entriesOf, setKey, lookupObj, tokType, tokText,
      tokValueEq, tokDisplay, truthy, ha, hb, hab]
  · simp [parseTopLevel, consume, collectNames, parseValue, parseObjectEntries,
      placeBlock, objAssign, entriesOf, setKey, lookupObj, tokType, tokText,
      tokValueEq, tokDisplay, truthy, ha]

/-- Witness for C2 at the spec's concrete strings. -/
theorem claim_C2_witness :
    parseTopLevel 52
      [.identifier "config", .symbol "\x7b", .identifier "a", .symbol "=", .num 1, .symbol "\x7d",
       .identifier "config", .symbol "\x7b", .identifier "b", .symbol "=", .num 2, .symbol "\x7d"] 0 []
      = .ok [("config", .obj [("a", .num 1), ("b", .num 2)])] :=
  (claim_C2_bare_block_accumulation "config" "a" "b" 1 2
    (by decide) (by decide) (by decide)).1

/-- Claim C3 (refuted by the code): the spec requires `parseValue` to accept
a Boolean token as a fifth scalar case, but the dispatch in parser.ts lines
58-76 has no boolean case, so a Boolean token at the cursor always throws
`Unexpected token`; through the pipeline, `config { enabled = true }` (the
repository's own parser test input) fails instead of parsing. -/
theorem claim_C3_boolean_token_rejected :
    (∀ (fuel : Nat) (tokens : List Token) (pos : Nat) (b : Bool),
        tokens[pos]? = some (.bool b) →
        parseValue (fuel + 1) tokens pos =
          .error ("Unexpected token: " ++ tokDisplay (.bool b)))
    ∧ parseValue 5 [Token.bool true] 0 = .error "Unexpected token: true"
    ∧ parseHCL "config \x7b enabled = true \x7d" = .error "Unexpected token: true" := by
  refine ⟨?_, rfl, rfl⟩
  intro fuel tokens pos b h
  simp [parseValue, h]

/-- Witness for C3: the general boolean-rejection fact at a concrete token
stream. -/
theorem claim_C3_witness :
    parseValue 8 [Token.bool false] 0 = .error "Unexpected token: false" :=
  claim_C3_boolean_token_rejected.1 7 [Token.bool false] 0 false rfl

/-- Claim C4: the richer lexer's number grammar has an optional leading
minus and an optional exponent, and a negative literal is one single Number
token: `tokenize "-42 -3.14"` is exactly two Number tokens with values
`-42` and `-3.14` (as exact rationals), not a symbol followed by a number;
`tokenize "2.5e-3 1e2"` exercises the exponent. -/
theorem claim_C4_signed_number_tokens :
    tokenize "-42 -3.14" = [Token.num (-42), Token.num (-3.14)]
    ∧ tokenize "2.5e-3 1e2" = [Token.num (2.5e-3), Token.num 100] := by
  constructor
  · have h : tokenize "-42 -3.14" =
        [Token.num ((-1) * ((42 : ℕ) : ℚ)),
         Token.num ((-1) * (((3 : ℕ) : ℚ) + ((14 : ℕ) : ℚ) / (10 : ℚ) ^ 2))] := rfl
    rw [h]
    norm_num
  · have h : tokenize "2.5e-3 1e2" =
        [Token.num (1 * ((((2 : ℕ) : ℚ) + ((5 : ℕ) : ℚ) / (10 : ℚ) ^ 1) / (10 : ℚ) ^ (3 : ℕ))),
         Token.num (1 * (((1 : ℕ) : ℚ) * (10 : ℚ) ^ (2 : ℕ)))] := rfl
    rw [h]
    norm_num

/-- Claim C5: comment stripping makes commented input tokenize identically
to the same input without the comment (`"a # comment\nb"` versus
`"a\nb"`, and the `//` form), and the trigger must be whitespace-preceded
or line-initial: a line-initial `#` strips, a whitespace-preceded `#`
strips, but `x#1` is not truncated — its `#` is merely an unmatched
character, so the `1` survives as a token. -/
theorem claim_C5_comment_stripping :
    tokenize "a # comment\nb" = tokenize "a\nb"
    ∧ tokenize "a // comment\nb" = tokenize "a\nb"
    ∧ tokenize "a\nb" = [Token.identifier "a", Token.identifier "b"]
    ∧ tokenize "x #1\ny" = [Token.identifier "x", Token.identifier "y"]
    ∧ tokenize "#1\ny" = [Token.identifier "y"]
    ∧ tokenize "x#1\ny" = [Token.identifier "x", Token.num 1, Token.identifier "y"] := by
  refine ⟨rfl, rfl, rfl, rfl, rfl, ?_⟩
  have h : tokenize "x#1\ny" =
      [Token.identifier "x", Token.num (1 * ((1 : ℕ) : ℚ)), Token.identifier "y"] := rfl
  rw [h]
  norm_num

/-- Claim C6 is refuted by this counterexample: the directive regex has no
boundary after the service-name alternation, so the word `cloudformationx`
— which is not one of the three recognized service names — still produces
a match: the service is reported as `cloudformation` and the returned text
is `"x"`, not the original text. -/
theorem claim_C6_counterexample :
    parseDirective "use cloudformationx" = ⟨some ServiceType.cloudformation, "x"⟩
    ∧ "cloudformationx" ∉ (["cloudformation", "grafana", "kubernetes"] : List String) := by
  exact ⟨rfl, by decide⟩

/-- Claim C6 as amended: a directive match requires `use`, whitespace, and
one of the three recognized service names as a case-insensitive prefix of
the following text; for every input `use <rest>` where `rest` (after its
leading whitespace) does not begin with any recognized service name,
`parseDirective` fails to match, reports no service, and returns the
original text verbatim. -/
theorem claim_C6_amended_no_service_verbatim
    (l : List Char) (h : matchService (l.dropWhile jsWs) = none) :
    parseDirective (String.mk ('u' :: 's' :: 'e' :: ' ' :: l)) =
      ⟨none, String.mk ('u' :: 's' :: 'e' :: ' ' :: l)⟩ := by
  simp [parseDirective, skipDirComments, matchCI, h, jsWs]

/-- Witness for the amended C6 on `use mystery`. -/
theorem claim_C6_witness :
    parseDirective "use mystery" = ⟨none, "use mystery"⟩ :=
  claim_C6_amended_no_service_verbatim "mystery".data (by decide)

/-- Claim C7: whenever the cursor requires a token but the stream is
exhausted, `consume` fails with `Unexpected end of input`; in particular
`parseHCL` on the unterminated `"config {"` fails with that error rather
than returning a partial result. -/
theorem claim_C7_unexpected_end_of_input
    (tokens : List Token) (pos : Nat) (et ev : Option String)
    (h : tokens.length ≤ pos) :
    consume tokens pos et ev = .error "Unexpected end of input"
    ∧ parseHCL "config \x7b" = .error "Unexpected end of input" := by
  refine ⟨?_, rfl⟩
  simp [consume, List.getElem?_eq_none h]

/-- Witness for C7 on the empty token stream. -/
theorem claim_C7_witness :
    consume [] 0 none none = .error "Unexpected end of input" :=
  (claim_C7_unexpected_end_of_input [] 0 none none (by decide)).1

/-- Claim C8: `tokenize` is total — it is a function returning a token list
for every input; whitespace-only input (in particular the empty string and
`"   \n\t  "`) yields the empty sequence for both lexer variants; an
unrecognised character such as `@` is skipped producing no token and no
error, both in general (the scanner step) and in concrete streams. -/
theorem claim_C8_tokenize_total_and_permissive
    (s : String) (h : ∀ c ∈ s.data, jsWs c = true) :
    tokenize s = []
    ∧ tokenizeLexer s = []
    ∧ (∀ (fuel : Nat) (p : Bool) (cs : List Char),
        scanRich (fuel + 1) p ('@' :: cs) = scanRich fuel false cs)
    ∧ tokenize "" = [] ∧ tokenize "   \n\t  " = []
    ∧ tokenizeLexer "" = [] ∧ tokenizeLexer "   \n\t  " = []
    ∧ tokenize "@@@" = []
    ∧ tokenize "a @ b" = [Token.identifier "a", Token.identifier "b"] := by
  refine ⟨?_, ?_, ?_, rfl, rfl, rfl, rfl, rfl, rfl⟩
  · simp only [tokenize]
    rw [stripLine_ws _ _ _ (Nat.lt_succ_self _) h,
      stripBlock_ws _ _ (Nat.lt_succ_self _) h]
    exact scanRich_ws _ _ _ h
  · simp only [tokenizeLexer]
    exact scanMin_ws _ _ h
  · intro fuel p cs
    cases p <;> rfl

/-- Witness for C8 on a concrete whitespace-only string. -/
theorem claim_C8_witness :
    tokenize "\t \n" = [] :=
  (claim_C8_tokenize_total_and_permissive "\t \n" (by decide)).1

/-- Claim C9: on every input that `parseHCL` parses successfully, every key
of the resulting top-level document is a syntactically valid identifier per
the lexer's identifier grammar (`[A-Za-z_][A-Za-z0-9_-]*`): keys only enter
the top-level mapping through `consume("identifier")`, and every identifier
token the lexer emits satisfies the grammar. -/
theorem claim_C9_top_level_keys_valid
    (s : String) (d : Obj) (h : parseHCL s = .ok d) :
    ∀ k ∈ keysOf d, isValidIdent k = true := by
  intro k hk
  have h' : parseTopLevel (4 * (tokenizeLexer s).length + 4) (tokenizeLexer s) 0 [] = .ok d := h
  exact parseTopLevel_keys (fun v => isValidIdent v = true) (tokenizeLexer s)
    (fun v hv => scanMin_ident_valid _ _ _ hv) _ 0 [] d (by simp [keysOf]) h' k hk

/-- Witness for C9 on `config {}`. -/
theorem claim_C9_witness : isValidIdent "config" = true :=
  claim_C9_top_level_keys_valid "config \x7b\x7d" [("config", HCLValue.obj [])] rfl
    "config" (by simp [keysOf])

/-- Claim C10: a bare top-level block whose body is not an object does not
make `parseHCL` fail; the body's enumerable own properties are merged into
the keyword's mapping — a number or boolean body contributes nothing, a
string body one single-character entry per index key, an array body one
entry per index key.  `parseHCL "config 5"` leaves `config` empty and
`parseHCL "config [1, 2]"` installs the index keys `0` and `1` (string and
boolean bodies cannot reach the merge through `parseHCL` — a string token
is always absorbed into the name chain and `parseValue` rejects booleans —
so their behaviour is stated on the merge itself). -/
theorem claim_C10_nonobject_bare_bodies :
    (∀ (t : Obj) (q : ℚ), objAssign t (.num q) = t)
    ∧ (∀ (t : Obj) (b : Bool), objAssign t (.bool b) = t)
    ∧ objAssign [] (.str "ab") = [("0", .str "a"), ("1", .str "b")]
    ∧ objAssign [] (.arr [.num 3, .bool true]) = [("0", .num 3), ("1", .bool true)]
    ∧ parseHCL "config 5" = .ok [("config", .obj [])]
    ∧ parseHCL "config [1, 2]" = .ok [("config", .obj [("0", .num 1), ("1", .num 2)])] :=
  ⟨fun _ _ => rfl, fun _ _ => rfl, rfl, rfl, rfl, rfl⟩
